import Mathlib

/-!
Shallow embedding of `src/app.py` (a Streamlit + SQLite app that registers,
filters, deletes and exports notarial acts).  The database table `atos` is
modelled as a list of rows plus the AUTOINCREMENT counter; the SQL of
`get_atos` (WHERE conditions and ORDER BY) is modelled by an explicit filter
and merge sort; SQLite's `date(...)` function is modelled by an ISO
`YYYY-MM-DD` parser that yields an order-preserving numeric code; SQL `LIKE`
is modelled by a wildcard matcher with ASCII case folding.  The pandas
`DataFrame.to_csv` call is modelled by a minimal-quoting CSV writer together
with a CSV parser used to state the round-trip property.
-/

namespace Cartorio

/-! ## Dates: model of SQLite `date(...)` on ISO input -/

/-- Numeric value of a decimal digit character. -/
def digitVal (c : Char) : Nat := c.toNat - 48

/-- Decimal digit character for a value below 10. -/
def digitChar (d : Nat) : Char := Char.ofNat (48 + d)

/-- Days in a month, with the Gregorian leap-year rule (used to decide which
`YYYY-MM-DD` strings denote calendar dates). -/
def daysInMonth (y m : Nat) : Nat :=
  if m = 2 then
    if (y % 4 = 0 && y % 100 != 0) || y % 400 = 0 then 29 else 28
  else if m = 4 || m = 6 || m = 9 || m = 11 then 30 else 31

/-- Model of SQLite `date(x)` restricted to ISO `YYYY-MM-DD` input: a valid
date string is encoded as the number `y*10000 + m*100 + d`, whose numeric
order agrees with calendar order; anything else (including NULL, handled by
`Option.bind` at the call sites) yields `none`, as `date(...)` yields NULL. -/
def parseDateChars (cs : List Char) : Option Nat :=
  match cs with
  | [y1, y2, y3, y4, s1, m1, m2, s2, d1, d2] =>
    if s1 = '-' && s2 = '-' && [y1, y2, y3, y4, m1, m2, d1, d2].all Char.isDigit then
      let y := ((digitVal y1 * 10 + digitVal y2) * 10 + digitVal y3) * 10 + digitVal y4
      let m := digitVal m1 * 10 + digitVal m2
      let d := digitVal d1 * 10 + digitVal d2
      if 1 ≤ m && m ≤ 12 && 1 ≤ d && d ≤ daysInMonth y m then
        some (y * 10000 + m * 100 + d)
      else none
    else none
  | _ => none

/-- `date(...)` on a string value. -/
def parseDate (s : String) : Option Nat := parseDateChars s.data

/-! ## SQL LIKE: wildcard match with ASCII case folding -/

/-- Fuelled worker for the `LIKE` matcher.  Every recursive call shrinks
`pattern.length + text.length`, so any fuel above that sum is enough. -/
def likeMatchF : Nat → List Char → List Char → Bool
  | 0, _, _ => false
  | fuel + 1, ps, s =>
    match ps, s with
    | [], s => s.isEmpty
    | '%' :: ps, [] => likeMatchF fuel ps []
    | '%' :: ps, c :: cs => likeMatchF fuel ps (c :: cs) || likeMatchF fuel ('%' :: ps) cs
    | _ :: _, [] => false
    | p :: ps, c :: cs =>
      if p = '_' then likeMatchF fuel ps cs
      else (p.toLower == c.toLower) && likeMatchF fuel ps cs

/-- Model of SQLite `LIKE`: `%` matches any sequence, `_` any single
character, and letters are compared after ASCII case folding (SQLite's
default `LIKE` is case-insensitive for ASCII only, which is exactly what
`Char.toLower` folds). -/
def likeMatch (ps s : List Char) : Bool :=
  likeMatchF (ps.length + s.length + 1) ps s

/-- The pattern actually built by `get_atos`: `"%" + search + "%"`. -/
def likeCond (search nome : String) : Bool :=
  likeMatch ('%' :: (search.data ++ ['%'])) nome.data

/-- Spec-side predicate, modelled from the spec's words for claim C5/C10:
`name` contains `S` as a literal substring, compared case-insensitively.
This is deliberately NOT a translation of the code; it is the reading the
spec asserts, to be compared against the `LIKE`-based code behaviour. -/
def containsCI (nome search : String) : Bool :=
  let hay := nome.data.map Char.toLower
  let needle := search.data.map Char.toLower
  (List.range (hay.length + 1)).any (fun i => needle.isPrefixOf (hay.drop i))

/-! ## Data model: the `atos` table -/

/-- One row of the `atos` table, as created by `init_db`:
`id INTEGER PRIMARY KEY AUTOINCREMENT, nome_ato TEXT NOT NULL,
valor REAL NOT NULL, data_ocorrido TEXT (nullable), descricao TEXT,
criado_em TEXT NOT NULL`.  The numeric `valor` is modelled as an integer
value; `data_ocorrido` is the stored text, `none` standing for SQL NULL. -/
structure Ato where
  id : Nat
  nome_ato : String
  valor : Int
  data_ocorrido : Option String
  descricao : String
  criado_em : String
deriving Repr, DecidableEq

/-- The database file: whether the `atos` table exists, its column list
(as reported by `PRAGMA table_info`), its rows, and the next AUTOINCREMENT
identifier (SQLite's AUTOINCREMENT never reuses identifiers). -/
structure DB where
  tableExists : Bool
  cols : List String
  rows : List Ato
  seq : Nat
deriving Repr, DecidableEq

/-- The full current column set of the `CREATE TABLE` statement. -/
def fullCols : List String :=
  ["id", "nome_ato", "valor", "data_ocorrido", "descricao", "criado_em"]

/-- `init_db`: `CREATE TABLE IF NOT EXISTS atos (...)`, then inspect
`PRAGMA table_info(atos)` and `ALTER TABLE atos ADD COLUMN data_ocorrido
TEXT` when that column is absent (the only column the migration probes). -/
def init_db (db : DB) : DB :=
  let db1 :=
    if db.tableExists then db
    else { tableExists := true, cols := fullCols, rows := [], seq := 1 }
  if "data_ocorrido" ∈ db1.cols then db1
  else { db1 with cols := db1.cols ++ ["data_ocorrido"] }

/-- `add_ato`: INSERT of one row, with `criado_em` taken from the clock
(`datetime.utcnow().isoformat()`, passed here as the explicit argument
`now`).  The Python function has no `return` statement, so it returns
`None`: the second component is that returned value, `none` standing for
Python's `None` (it is never `some i` for the inserted identifier). -/
def add_ato (db : DB) (nome_ato : String) (valor : Int) (data_ocorrido : String)
    (descricao : String) (now : String) : DB × Option Nat :=
  ({ db with
      rows := db.rows ++ [⟨db.seq, nome_ato, valor, some data_ocorrido, descricao, now⟩],
      seq := db.seq + 1 },
   none)

/-- The date key the query sorts and filters by: `date(data_ocorrido)`. -/
def dateOf (r : Ato) : Option Nat := r.data_ocorrido.bind parseDate

/-- WHERE clause of `get_atos`: the conjunction of
`date(data_ocorrido) >= date(start)`, `date(data_ocorrido) <= date(end)`
and `nome_ato LIKE '%'+search+'%'`, each present only when its parameter
is truthy (in particular an empty search string adds no condition, which is
Python's `if search:`).  A NULL `date(data_ocorrido)` fails both
comparisons, as SQL three-valued logic drops the row. -/
def rowCond (start_date end_date : Option Nat) (search : Option String) (r : Ato) : Bool :=
  (match start_date with
   | some lo => match dateOf r with
     | some d => decide (lo ≤ d)
     | none => false
   | none => true) &&
  (match end_date with
   | some hi => match dateOf r with
     | some d => decide (d ≤ hi)
     | none => false
   | none => true) &&
  (match search with
   | some s => if s.isEmpty then true else likeCond s r.nome_ato
   | none => true)

/-- Sort rank of a row for `ORDER BY date(data_ocorrido) DESC`: NULL sorts
below every date in SQLite, so it is mapped below every date code. -/
def rank (r : Ato) : Nat :=
  match dateOf r with
  | none => 0
  | some c => c + 1

/-- `a` may precede `b` under
`ORDER BY date(data_ocorrido) DESC, id DESC`. -/
def leRow (a b : Ato) : Bool :=
  decide (rank b < rank a ∨ (rank b = rank a ∧ b.id ≤ a.id))

/-- `get_atos`: SELECT with the optional WHERE conditions and
`ORDER BY date(data_ocorrido) DESC, id DESC`.  Filter parameters carry
already-parsed dates, as the UI hands `st.date_input` values straight to
the query.  (The pandas dataframe conversion that follows in the source
only re-renders `data_ocorrido`/`criado_em`; the row set and order are
fixed here.) -/
def get_atos (db : DB) (start_date end_date : Option Nat) (search : Option String) : List Ato :=
  (db.rows.filter (rowCond start_date end_date search)).mergeSort leRow

/-- `delete_ato`: `DELETE FROM atos WHERE id = ?`.  Like `add_ato`, the
Python function returns `None`; the second component is that return value
(`none` standing for `None`; it is never a Boolean "was a row removed"
signal). -/
def delete_ato (db : DB) (ato_id : Nat) : DB × Option Bool :=
  ({ db with rows := db.rows.filter (fun r => r.id != ato_id) }, none)

/-- Python's `str.strip()`: drop leading and trailing whitespace. -/
def pyStrip (s : String) : String :=
  String.mk (((s.data.dropWhile Char.isWhitespace).reverse.dropWhile
    Char.isWhitespace).reverse)

/-- The `form_add` submit handler (src/app.py lines 150-156): an
empty-after-strip name only produces a warning and no insert; otherwise the
stripped name and description are inserted via `add_ato`.  The Boolean
records whether a record was saved. -/
def form_submit (db : DB) (nome_ato : String) (valor : Int) (data_ocorrido : String)
    (descricao : String) (now : String) : DB × Bool :=
  if pyStrip nome_ato = "" then (db, false)
  else ((add_ato db (pyStrip nome_ato) valor data_ocorrido (pyStrip descricao) now).1, true)

/-! ## Connection lifecycle (claim C9)

Each store operation runs `conn = get_connection()`, then its statements,
then `conn.commit()` and `conn.close()`, with no `try/finally` and no
context manager.  The model tracks the number of open connections and takes
a flag saying whether one of the executed statements raises; when it does,
the exception propagates before the `conn.close()` line is reached. -/

/-- `add_ato` connection accounting: open, execute INSERT (may raise),
commit, close.  Returns (open connections afterwards, completed normally). -/
def add_ato_conns (openConns : Nat) (execRaises : Bool) : Nat × Bool :=
  let opened := openConns + 1
  if execRaises then (opened, false) else (opened - 1, true)

/-- `get_atos` connection accounting: open, execute SELECT (may raise),
close. -/
def get_atos_conns (openConns : Nat) (execRaises : Bool) : Nat × Bool :=
  let opened := openConns + 1
  if execRaises then (opened, false) else (opened - 1, true)

/-- `delete_ato` connection accounting: open, execute DELETE (may raise),
commit, close. -/
def delete_ato_conns (openConns : Nat) (execRaises : Bool) : Nat × Bool :=
  let opened := openConns + 1
  if execRaises then (opened, false) else (opened - 1, true)

/-- `init_db` connection accounting: open, execute CREATE/PRAGMA/ALTER
(any may raise), commit, close. -/
def init_db_conns (openConns : Nat) (execRaises : Bool) : Nat × Bool :=
  let opened := openConns + 1
  if execRaises then (opened, false) else (opened - 1, true)

/-! ## Decimal numerals (cells of the `id` and `valor` columns) -/

/-- Big-endian decimal digits of a natural number, as characters. -/
def natDigs (n : Nat) : List Char :=
  if n = 0 then ['0'] else ((Nat.digits 10 n).map digitChar).reverse

/-- Parse a non-empty all-digit cell back to a natural number. -/
def cellToNat (cs : List Char) : Option Nat :=
  if cs ≠ [] ∧ cs.all Char.isDigit then
    some (cs.foldl (fun a c => a * 10 + digitVal c) 0)
  else none

/-- Decimal rendering of the integer `valor`. -/
def intRepr (i : Int) : List Char :=
  if i < 0 then '-' :: natDigs (-i).toNat else natDigs i.toNat

/-- Parse an optionally-signed decimal cell back to an integer. -/
def cellToInt : List Char → Option Int
  | [] => none
  | c :: rest =>
    if c = '-' then (cellToNat rest).map (fun n => -(Int.ofNat n))
    else (cellToNat (c :: rest)).map (fun n => Int.ofNat n)

/-! ## Date cells -/

/-- Two-digit zero-padded rendering (month, day). -/
def pad2 (n : Nat) : List Char := [digitChar (n / 10 % 10), digitChar (n % 10)]

/-- Four-digit zero-padded rendering (year). -/
def pad4 (n : Nat) : List Char :=
  [digitChar (n / 1000 % 10), digitChar (n / 100 % 10), digitChar (n / 10 % 10),
   digitChar (n % 10)]

/-- The fixed `YYYY-MM-DD` text representation of a date code, as written
into the CSV for the converted `data_ocorrido` column. -/
def isoOfCode (c : Nat) : List Char :=
  pad4 (c / 10000) ++ '-' :: pad2 (c / 100 % 100) ++ '-' :: pad2 (c % 100)

/-- The date codes that denote calendar dates (exactly the image of
`parseDate`). -/
def validCode (c : Nat) : Bool :=
  decide (c / 10000 ≤ 9999 ∧ 1 ≤ c / 100 % 100 ∧ c / 100 % 100 ≤ 12 ∧
    1 ≤ c % 100 ∧ c % 100 ≤ daysInMonth (c / 10000) (c / 100 % 100))

/-! ## CSV writer and parser (model of `df.to_csv(index=False)`)

pandas writes with the `csv` module in QUOTE_MINIMAL mode: a cell is quoted
exactly when it contains the delimiter, the quote character or a line-break
character, quote characters are doubled inside quotes, cells are joined
with `,` and every record (header included) is terminated by `\n`.  The
parser below inverts this discipline; it is used to state the round-trip
half of claim C7. -/

/-- QUOTE_MINIMAL test: does this cell need quoting? -/
def needsQuote (s : List Char) : Bool :=
  s.any (fun c => c == ',' || c == '"' || c == '\n' || c == '\r')

/-- Double every quote character. -/
def escQuote : List Char → List Char
  | [] => []
  | c :: cs => if c = '"' then '"' :: '"' :: escQuote cs else c :: escQuote cs

/-- Render one cell with minimal quoting. -/
def renderField (s : List Char) : List Char :=
  if needsQuote s then '"' :: (escQuote s ++ ['"']) else s

/-- Render one record: comma-separated cells, newline-terminated. -/
def renderFields : List (List Char) → List Char
  | [] => ['\n']
  | [f] => renderField f ++ ['\n']
  | f :: fs => renderField f ++ ',' :: renderFields fs

/-- Render a whole CSV document. -/
def renderDoc : List (List (List Char)) → List Char
  | [] => []
  | rec :: rest => renderFields rec ++ renderDoc rest

/-- Parse a quoted cell (opening quote already consumed): a doubled quote
is a literal quote, a lone quote closes the cell. -/
def parseQuoted : List Char → Option (List Char × List Char)
  | [] => none
  | c :: rest =>
    if c = '"' then
      if rest.head? = some '"' then
        (parseQuoted rest.tail).map (fun p => ('"' :: p.1, p.2))
      else some ([], rest)
    else (parseQuoted rest).map (fun p => (c :: p.1, p.2))
termination_by l => l.length
decreasing_by
  · simp [List.length_tail]; omega
  · simp

/-- Parse an unquoted cell: everything up to the next `,` or newline. -/
def parseUnquoted : List Char → List Char × List Char
  | [] => ([], [])
  | c :: rest =>
    if c = ',' ∨ c = '\n' then ([], c :: rest)
    else
      let p := parseUnquoted rest
      (c :: p.1, p.2)

/-- Parse one cell, choosing the quoted or unquoted grammar by the first
character. -/
def parseFieldAt (l : List Char) : Option (List Char × List Char) :=
  if l.head? = some '"' then parseQuoted l.tail else some (parseUnquoted l)

/-- Parse one record (fuelled by the number of cells still possible). -/
def parseRecF : Nat → List Char → Option (List (List Char) × List Char)
  | 0, _ => none
  | fuel + 1, l =>
    (parseFieldAt l).bind fun fr =>
      match fr.2 with
      | [] => none
      | c :: rest2 =>
        if c = ',' then (parseRecF fuel rest2).map (fun p => (fr.1 :: p.1, p.2))
        else if c = '\n' then some ([fr.1], rest2)
        else none

/-- Parse a sequence of records until the input is exhausted. -/
def parseDocF : Nat → List Char → Option (List (List (List Char)))
  | 0, l => if l = [] then some [] else none
  | fuel + 1, l =>
    if l = [] then some []
    else
      (parseRecF (l.length + 1) l).bind fun p =>
        (parseDocF fuel p.2).map (p.1 :: ·)

/-- Parse a CSV document. -/
def parseDoc (l : List Char) : Option (List (List (List Char))) :=
  parseDocF l.length l

/-! ## The exported dataframe -/

/-- One row of the dataframe produced by `get_atos` after its pandas
conversions: `data_ocorrido` has been coerced to a date (`none` = NaT,
written as an empty cell) and `criado_em` re-rendered as a timestamp text
(kept here as its text representation — the claim's "fixed date/time text
representation"). -/
structure DfRow where
  id : Nat
  nome_ato : String
  valor : Int
  data_ocorrido : Option Nat
  descricao : String
  criado_em : String
deriving Repr, DecidableEq

/-- The pandas conversion step of `get_atos` (lines 71-77):
`pd.to_datetime(..., errors='coerce').dt.date` on `data_ocorrido`. -/
def dfConvert (r : Ato) : DfRow :=
  ⟨r.id, r.nome_ato, r.valor, dateOf r, r.descricao, r.criado_em⟩

/-- The text cells `to_csv` writes for one dataframe row, in column
order. -/
def rowCells (r : DfRow) : List (List Char) :=
  [natDigs r.id, r.nome_ato.data, intRepr r.valor,
   (match r.data_ocorrido with
    | some c => isoOfCode c
    | none => []),
   r.descricao.data, r.criado_em.data]

/-- Recover a dataframe row from its six cells. -/
def cellsToRow (cs : List (List Char)) : Option DfRow :=
  match cs with
  | [c1, c2, c3, c4, c5, c6] =>
    (cellToNat c1).bind fun i =>
      (cellToInt c3).bind fun v =>
        (if c4 = [] then some none else (parseDateChars c4).map some).bind fun d =>
          some ⟨i, String.mk c2, v, d, String.mk c5, String.mk c6⟩
  | _ => none

/-- Recover all dataframe rows. -/
def rowsFromCells : List (List (List Char)) → Option (List DfRow)
  | [] => some []
  | c :: rest => (cellsToRow c).bind fun r => (rowsFromCells rest).map (r :: ·)

/-- The header cells: the column names of the `atos` table, which are the
dataframe's column labels. -/
def headerCells : List (List Char) := fullCols.map String.data

/-- `df.to_csv(index=False)`: header row then one data row per record, in
input order.  (`.encode("utf-8")` then yields the bytes; UTF-8 encoding of
this text is injective, so the round-trip is stated on the text.) -/
def toCsv (rows : List DfRow) : String :=
  String.mk (renderDoc (headerCells :: rows.map rowCells))

/-- Decode CSV text back into dataframe rows: parse, check the header,
recover each record. -/
def decodeCsvRecords (s : String) : Option (List DfRow) :=
  (parseDoc s.data).bind fun table =>
    match table with
    | hd :: body => if hd = headerCells then rowsFromCells body else none
    | [] => none

/-- Rows whose date cell round-trips: the date code, when present, denotes
a calendar date (every code produced by `parseDate` does). -/
def validRow (r : DfRow) : Bool := r.data_ocorrido.all validCode

/-! ## The ordering claimed for `list` results (claim C3) -/

/-- Order on the `date(data_ocorrido)` key under which claim C3 is stated:
dates compare by calendar order and a missing/unparseable date sorts below
every date (SQLite's NULL ordering, which `DESC` places last). -/
def dateLeOpt : Option Nat → Option Nat → Prop
  | none, _ => True
  | some _, none => False
  | some a, some b => a ≤ b

/-! ## Concrete stores used in counterexamples and witnesses -/

/-- A fresh database right after `init_db` on a missing file. -/
def db0 : DB := init_db ⟨false, [], [], 0⟩

/-- A store holding one act named "Escritura". -/
def dbEscritura : DB :=
  (add_ato db0 "Escritura" 150 "2024-03-10" "" "2024-03-10T12:00:00").1

/-- The single row of `dbEscritura`. -/
def escrituraRow : Ato :=
  ⟨1, "Escritura", 150, some "2024-03-10", "", "2024-03-10T12:00:00"⟩

/-- A database file created by an older schema version: the `atos` table
exists but lacks the `data_ocorrido` column, and already holds one row. -/
def dbOld : DB :=
  ⟨true, ["id", "nome_ato", "valor", "descricao", "criado_em"],
   [⟨1, "Registro antigo", 42, none, "feito antes", "2023-01-01T00:00:00"⟩], 2⟩

/-- A dataframe row whose name needs CSV quoting. -/
def csvRow1 : DfRow :=
  ⟨1, "Escritura, \"urgente\"", 150, some 20240310, "linha um", "2024-03-10 12:00:00"⟩

/-- A dataframe row with a negative amount and a missing date. -/
def csvRow2 : DfRow := ⟨2, "Procuracao", -80, none, "", "2024-03-12 08:30:00"⟩

/-! ## Helper lemmas -/

/-- Sorting a one-element list is the identity. -/
theorem mergeSort_single (le : Ato → Ato → Bool) (a : Ato) :
    [a].mergeSort le = [a] :=
  List.perm_singleton.mp (List.mergeSort_perm [a] le)

/-- On the store holding only "Escritura", the search "%" returns that
row: the `LIKE` pattern `%%%` matches every name. -/
theorem get_atos_escritura_wildcard :
    get_atos dbEscritura none none (some "%") = [escrituraRow] := by
  unfold get_atos
  have h : dbEscritura.rows.filter (rowCond none none (some "%")) = [escrituraRow] := by
    decide
  rw [h, mergeSort_single]

/-! ## Claim C1 -/

/-- C1 (counterexample): the claim says `add_ato` returns the newly
assigned integer identifier.  On a fresh store the insert assigns id 1
(= `db0.seq`), but the call returns Python `None` (modelled `none`), not
`some` of that identifier. -/
theorem c1_counterexample :
    (add_ato db0 "Escritura" 150 "2024-03-10" "" "2024-03-10T12:00:00").2 = none ∧
    (add_ato db0 "Escritura" 150 "2024-03-10" "" "2024-03-10T12:00:00").2 ≠ some db0.seq :=
  ⟨rfl, by decide⟩

/-- C1 (amended): `add_ato` inserts the record, assigning the next
AUTOINCREMENT identifier and advancing the counter, but returns `None`
rather than the new identifier. -/
theorem c1_amended (db : DB) (nome : String) (valor : Int) (d desc now : String) :
    (add_ato db nome valor d desc now).2 = none ∧
    (add_ato db nome valor d desc now).1.rows
      = db.rows ++ [⟨db.seq, nome, valor, some d, desc, now⟩] ∧
    (add_ato db nome valor d desc now).1.seq = db.seq + 1 :=
  ⟨rfl, rfl, rfl⟩

/-! ## Claim C2 -/

/-- C2 (counterexample): the claim says every `delete_ato` call returns a
signal saying whether a row was removed, so a second delete returns
"nothing removed".  In fact a second delete of id 1 returns Python `None`
(modelled `none`), not a "nothing removed" value. -/
theorem c2_counterexample :
    (delete_ato (delete_ato dbEscritura 1).1 1).2 = none ∧
    (delete_ato (delete_ato dbEscritura 1).1 1).2 ≠ some false :=
  ⟨rfl, by decide⟩

/-- C2 (amended): deleting an id that is not present leaves the store
unchanged and raises no error (idempotent hard delete), but `delete_ato`
returns `None` on every call, so no removal signal distinguishes "deleted"
from "already gone". -/
theorem c2_amended (db : DB) (i : Nat) (h : ∀ r ∈ db.rows, r.id ≠ i) :
    (delete_ato db i).2 = none ∧
    (delete_ato db i).1.rows = db.rows.filter (fun r => r.id != i) ∧
    (delete_ato db i).1 = db := by
  refine ⟨rfl, rfl, ?_⟩
  have hf : db.rows.filter (fun r => r.id != i) = db.rows :=
    List.filter_eq_self.mpr (fun r hr => by simpa using h r hr)
  simp [delete_ato, hf]

/-- C2 (witness): the amended statement at the fresh store and id 7. -/
theorem c2_witness :
    (delete_ato db0 7).2 = none ∧
    (delete_ato db0 7).1.rows = db0.rows.filter (fun r => r.id != 7) ∧
    (delete_ato db0 7).1 = db0 :=
  c2_amended db0 7 (by decide)

/-! ## Claim C8 -/

/-- C8 (counterexample): the claim says a create with an empty name or a
negative amount fails with `ValidationError` and the record is not
created.  `add_ato` performs no validation: with an empty name and amount
-5 it inserts the row and completes normally. -/
theorem c8_counterexample :
    (add_ato db0 "" (-5) "2024-03-10" "" "2024-03-10T00:00:00").1.rows
      = [⟨1, "", -5, some "2024-03-10", "", "2024-03-10T00:00:00"⟩] ∧
    (add_ato db0 "" (-5) "2024-03-10" "" "2024-03-10T00:00:00").2 = none :=
  ⟨by decide, rfl⟩

/-- C8 (amended): empty names are rejected only at the form boundary,
which shows a warning and performs no insert; the store operation itself
performs no validation and inserts any name and any amount (negative
included) without error, and no `ValidationError`/`StorageError` exception
types exist in the program. -/
theorem c8_amended (db : DB) (nome nome2 : String) (valor valor2 : Int)
    (d desc now : String) (h : pyStrip nome = "") :
    form_submit db nome valor d desc now = (db, false) ∧
    (add_ato db nome2 valor2 d desc now).1.rows.length = db.rows.length + 1 ∧
    (add_ato db nome2 valor2 d desc now).2 = none := by
  refine ⟨?_, ?_, rfl⟩
  · simp [form_submit, h]
  · simp [add_ato]

/-- C8 (witness): the amended statement at a whitespace name and a
negative-amount insert on the fresh store. -/
theorem c8_witness :
    form_submit db0 "  " 10 "2024-03-10" "" "t0" = (db0, false) ∧
    (add_ato db0 "" (-5) "2024-03-10" "" "t0").1.rows.length = db0.rows.length + 1 ∧
    (add_ato db0 "" (-5) "2024-03-10" "" "t0").2 = none :=
  c8_amended db0 "  " "" 10 (-5) "2024-03-10" "" "t0" (by decide)

/-! ## Claim C9 -/

/-- C9 (counterexample): the claim says the connection is always released
on every exit path.  On the error path of `add_ato` (the INSERT raises),
starting from zero open connections, one connection remains open when the
exception propagates: `conn.close()` is written after the statements with
no `try/finally`. -/
theorem c9_counterexample :
    (add_ato_conns 0 true).1 = 1 ∧ (add_ato_conns 0 true).2 = false :=
  ⟨rfl, rfl⟩

/-- C9 (amended): on the success path each operation closes its connection
before returning, but on an error path (a statement raises) the connection
opened by the operation is not released before the failure propagates. -/
theorem c9_amended (n : Nat) :
    ((add_ato_conns n false).1 = n ∧ (add_ato_conns n false).2 = true) ∧
    ((get_atos_conns n false).1 = n ∧ (get_atos_conns n false).2 = true) ∧
    ((delete_ato_conns n false).1 = n ∧ (delete_ato_conns n false).2 = true) ∧
    ((init_db_conns n false).1 = n ∧ (init_db_conns n false).2 = true) ∧
    (add_ato_conns n true).1 = n + 1 ∧
    (get_atos_conns n true).1 = n + 1 ∧
    (delete_ato_conns n true).1 = n + 1 ∧
    (init_db_conns n true).1 = n + 1 := by
  simp [add_ato_conns, get_atos_conns, delete_ato_conns, init_db_conns]

/-! ## Claim C10 -/

/-- C10: the search term is spliced into a `LIKE` pattern unescaped, so a
wildcard search string matches names that do not literally contain it: the
search "%" returns the row named "Escritura" (the `LIKE` pattern `%%%`
matches it) although "Escritura" does not contain "%" as a substring. -/
theorem c10_like_wildcard :
    get_atos dbEscritura none none (some "%") = [escrituraRow] ∧
    likeCond "%" escrituraRow.nome_ato = true ∧
    containsCI escrituraRow.nome_ato "%" = false :=
  ⟨get_atos_escritura_wildcard, by decide, by decide⟩

/-! ## Claim C5 -/

/-- C5 (counterexample): the claim says `list` with search S returns
exactly the records whose name contains S as a substring.  With S = "%"
the one record of `dbEscritura` is returned although its name "Escritura"
does not contain "%". -/
theorem c5_counterexample :
    get_atos dbEscritura none none (some "%") = [escrituraRow] ∧
    containsCI escrituraRow.nome_ato "%" = false :=
  ⟨get_atos_escritura_wildcard, by decide⟩


/-- C5 (amended): with a non-empty search string S, `list` returns exactly
the records whose name matches the SQL LIKE pattern `%S%` (ASCII-case-
insensitive, with `%` and `_` acting as wildcards, unescaped); an empty or
absent search imposes no constraint. -/
theorem c5_amended (db : DB) (S : String) (r : Ato) (hS : S ≠ "") :
    (r ∈ get_atos db none none (some S) ↔
      r ∈ db.rows ∧ likeCond S r.nome_ato = true) ∧
    get_atos db none none (some "") = get_atos db none none none := by
  have hSe : S.isEmpty = false := by
    rw [Bool.eq_false_iff]
    simp [String.isEmpty_iff, hS]
  constructor
  · unfold get_atos
    rw [(List.mergeSort_perm _ _).mem_iff, List.mem_filter]
    have hr : rowCond none none (some S) r = likeCond S r.nome_ato := by
      simp [rowCond, hSe]
    rw [hr]
  · rfl

/-- C5 (witness): the amended statement at the "Escritura" store with the
search string "escrit". -/
theorem c5_witness :
    (escrituraRow ∈ get_atos dbEscritura none none (some "escrit") ↔
      escrituraRow ∈ dbEscritura.rows ∧ likeCond "escrit" escrituraRow.nome_ato = true) ∧
    get_atos dbEscritura none none (some "") = get_atos dbEscritura none none none :=
  c5_amended dbEscritura "escrit" escrituraRow (by decide)

/-- C3: the sequence returned by `get_atos` is ordered non-increasing by
`occurred_on` (the `date(data_ocorrido)` key, a missing or unparseable
date sorting below every date, as SQLite places NULL last under DESC),
with records of equal key ordered by non-increasing id. -/
theorem c3_order (db : DB) (sd ed : Option Nat) (q : Option String) :
    (get_atos db sd ed q).Pairwise (fun a b =>
      dateLeOpt (dateOf b) (dateOf a) ∧ (dateOf a = dateOf b → b.id ≤ a.id)) := by
  have htrans : ∀ a b c : Ato, leRow a b = true → leRow b c = true → leRow a c = true := by
    intro a b c
    simp only [leRow, decide_eq_true_eq]
    omega
  have htotal : ∀ a b : Ato, (leRow a b || leRow b a) = true := by
    intro a b
    simp only [leRow, Bool.or_eq_true, decide_eq_true_eq]
    omega
  have hs := List.sorted_mergeSort htrans htotal (db.rows.filter (rowCond sd ed q))
  unfold get_atos
  refine hs.imp ?_
  intro a b hab
  simp only [leRow, decide_eq_true_eq] at hab
  cases hdb : dateOf b <;> cases hda : dateOf a <;>
    simp only [rank, hda, hdb, dateLeOpt] at hab ⊢
  all_goals first
    | omega
    | exact ⟨trivial, fun _ => by omega⟩
    | exact ⟨trivial, by simp⟩
    | (refine ⟨by omega, fun hh => ?_⟩
       simp only [Option.some.injEq] at hh
       omega)

/-- C4: `list` with both `start_date` D1 and `end_date` D2 returns exactly
the records whose `occurred_on` parses to a date inside `[D1, D2]`
inclusive; records with a missing or unparseable `occurred_on` are
excluded (and the model, being a total function, cannot crash on them). -/
theorem c4_range (db : DB) (d1 d2 : Nat) :
    (get_atos db (some d1) (some d2) none).Perm
      (db.rows.filter fun r =>
        match dateOf r with
        | some d => decide (d1 ≤ d ∧ d ≤ d2)
        | none => false) := by
  have he : db.rows.filter (rowCond (some d1) (some d2) none)
      = db.rows.filter (fun r =>
          match dateOf r with
          | some d => decide (d1 ≤ d ∧ d ≤ d2)
          | none => false) := by
    apply List.filter_congr
    intro r _
    cases h : dateOf r <;> simp [rowCond, h, Bool.decide_and]
  unfold get_atos
  rw [he]
  exact List.mergeSort_perm _ _

/-- C6: on an existing store file, `init_db` leaves every row (hence every
other column value), the id counter and the table intact, ensures the
`data_ocorrido` column (the one newer optional column the migration
probes) is present, appending it in place exactly when missing, and a
repeated call is the identity. -/
theorem c6_migration (db : DB) (h : db.tableExists = true) :
    (init_db db).rows = db.rows ∧
    (init_db db).seq = db.seq ∧
    (init_db db).tableExists = true ∧
    "data_ocorrido" ∈ (init_db db).cols ∧
    (init_db db).cols
      = (if "data_ocorrido" ∈ db.cols then db.cols else db.cols ++ ["data_ocorrido"]) ∧
    init_db (init_db db) = init_db db := by
  unfold init_db
  by_cases hc : "data_ocorrido" ∈ db.cols <;> simp [h, hc]

/-- C6 (witness): the statement at `dbOld`, a store created by the older
schema without `data_ocorrido` and holding one row. -/
theorem c6_witness :
    (init_db dbOld).rows = dbOld.rows ∧
    (init_db dbOld).seq = dbOld.seq ∧
    (init_db dbOld).tableExists = true ∧
    "data_ocorrido" ∈ (init_db dbOld).cols ∧
    (init_db dbOld).cols
      = (if "data_ocorrido" ∈ dbOld.cols then dbOld.cols else dbOld.cols ++ ["data_ocorrido"]) ∧
    init_db (init_db dbOld) = init_db dbOld :=
  c6_migration dbOld rfl


/-! ## Numeral, date-cell and CSV round-trip lemmas (claim C7) -/

theorem digitChar_isDigit {d : Nat} (h : d < 10) : (digitChar d).isDigit = true := by
  interval_cases d <;> decide

theorem digitVal_digitChar {d : Nat} (h : d < 10) : digitVal (digitChar d) = d := by
  interval_cases d <;> decide

theorem digitChar_ne_dash {d : Nat} (h : d < 10) : digitChar d ≠ '-' := by
  interval_cases d <;> decide

theorem foldr_digitChar (L : List Nat) (hL : ∀ d ∈ L, d < 10) :
    (L.map digitChar).foldr (fun c a => a * 10 + digitVal c) 0 = Nat.ofDigits 10 L := by
  induction L with
  | nil => simp [Nat.ofDigits_nil]
  | cons d L ih =>
    have hd : d < 10 := hL d (List.mem_cons_self d L)
    have hL2 : ∀ x ∈ L, x < 10 := fun x hx => hL x (List.mem_cons_of_mem d hx)
    simp only [List.map_cons, List.foldr_cons, ih hL2, Nat.ofDigits_cons,
      digitVal_digitChar hd]
    omega

theorem natDigs_ne_nil (n : Nat) : natDigs n ≠ [] := by
  unfold natDigs
  by_cases h : n = 0
  · simp [h]
  · simp [h]
    exact Nat.digits_ne_nil_iff_ne_zero.mpr h

theorem natDigs_all_digits (n : Nat) : (natDigs n).all Char.isDigit = true := by
  unfold natDigs
  by_cases h : n = 0
  · simp [h]
  · simp only [h, if_false, List.all_eq_true]
    intro c hc
    rw [List.mem_reverse, List.mem_map] at hc
    obtain ⟨d, hd, rfl⟩ := hc
    exact digitChar_isDigit (Nat.digits_lt_base (by norm_num) hd)

theorem cellToNat_natDigs (n : Nat) : cellToNat (natDigs n) = some n := by
  by_cases h : n = 0
  · subst h; decide
  · unfold cellToNat
    rw [if_pos ⟨natDigs_ne_nil n, natDigs_all_digits n⟩]
    unfold natDigs
    rw [if_neg h, List.foldl_reverse, foldr_digitChar _
      (fun d hd => Nat.digits_lt_base (by norm_num) hd), Nat.ofDigits_digits]

theorem cellToInt_cons (c : Char) (t : List Char) :
    cellToInt (c :: t) = if c = '-' then (cellToNat t).map (fun n => -(Int.ofNat n))
      else (cellToNat (c :: t)).map (fun n => Int.ofNat n) := rfl

theorem cellToInt_intRepr (i : Int) : cellToInt (intRepr i) = some i := by
  by_cases h : i < 0
  · unfold intRepr
    rw [if_pos h]
    rw [cellToInt_cons, if_pos rfl, cellToNat_natDigs]
    simp only [Option.map_some', Int.ofNat_eq_coe]
    congr 1
    omega
  · unfold intRepr
    rw [if_neg h]
    rcases hd : natDigs i.toNat with _ | ⟨c, t⟩
    · exact absurd hd (natDigs_ne_nil _)
    · have hcd : c.isDigit = true := by
        have := natDigs_all_digits i.toNat
        rw [hd, List.all_cons, Bool.and_eq_true] at this
        exact this.1
      have hc : c ≠ '-' := by
        intro he
        rw [he] at hcd
        exact absurd hcd (by decide)
      rw [cellToInt_cons, if_neg hc, ← hd, cellToNat_natDigs]
      simp only [Option.map_some', Int.ofNat_eq_coe]
      congr 1
      omega


theorem digitChar_mod_isDigit (n : Nat) : (digitChar (n % 10)).isDigit = true :=
  digitChar_isDigit (Nat.mod_lt _ (by norm_num))

theorem digitVal_digitChar_mod (n : Nat) : digitVal (digitChar (n % 10)) = n % 10 :=
  digitVal_digitChar (Nat.mod_lt _ (by norm_num))

theorem isoOfCode_eq (c : Nat) :
    isoOfCode c =
      [digitChar (c / 10000 / 1000 % 10), digitChar (c / 10000 / 100 % 10),
       digitChar (c / 10000 / 10 % 10), digitChar (c / 10000 % 10), '-',
       digitChar (c / 100 % 100 / 10 % 10), digitChar (c / 100 % 100 % 10), '-',
       digitChar (c % 100 / 10 % 10), digitChar (c % 100 % 10)] := rfl

theorem parseDateChars_isoOfCode {c : Nat} (h : validCode c = true) :
    parseDateChars (isoOfCode c) = some c := by
  rw [validCode, decide_eq_true_eq] at h
  obtain ⟨hy, hm1, hm2, hd1, hd2⟩ := h
  rw [isoOfCode_eq]
  unfold parseDateChars
  simp only [List.all_cons, List.all_nil, digitChar_mod_isDigit, Bool.and_true,
    Bool.and_self, if_pos, digitVal_digitChar_mod]
  have ey : ((c / 10000 / 1000 % 10 * 10 + c / 10000 / 100 % 10) * 10 +
      c / 10000 / 10 % 10) * 10 + c / 10000 % 10 = c / 10000 := by omega
  have em : c / 100 % 100 / 10 % 10 * 10 + c / 100 % 100 % 10 = c / 100 % 100 := by omega
  have ed : c % 100 / 10 % 10 * 10 + c % 100 % 10 = c % 100 := by omega
  rw [ey, em, ed]
  have hcnd : (decide (1 ≤ c / 100 % 100) && decide (c / 100 % 100 ≤ 12) &&
      decide (1 ≤ c % 100) &&
      decide (c % 100 ≤ daysInMonth (c / 10000) (c / 100 % 100))) = true := by
    simp only [Bool.and_eq_true, decide_eq_true_eq]
    exact ⟨⟨⟨hm1, hm2⟩, hd1⟩, hd2⟩
  simp only [decide_True, if_true, hcnd]
  congr 1
  omega


theorem parseQuoted_escQuote (f : List Char) :
    ∀ rest : List Char, rest.head? ≠ some '"' →
      parseQuoted (escQuote f ++ '"' :: rest) = some (f, rest) := by
  induction f with
  | nil =>
    intro rest h
    simp only [escQuote, List.nil_append]
    rw [parseQuoted.eq_2]
    simp [h]
  | cons c f ih =>
    intro rest h
    by_cases hc : c = '"'
    · subst hc
      have he : escQuote ('\"' :: f) = '\"' :: '\"' :: escQuote f := by
        simp [escQuote]
      rw [he]
      simp only [List.cons_append]
      rw [parseQuoted.eq_2]
      simp only [if_pos rfl, List.head?_cons, List.tail_cons]
      rw [ih rest h]
      rfl
    · simp only [escQuote, if_neg hc, List.cons_append]
      rw [parseQuoted.eq_2]
      simp only [if_neg hc]
      rw [ih rest h]
      rfl

theorem parseUnquoted_clean (f : List Char) (hf : ∀ x ∈ f, x ≠ ',' ∧ x ≠ '\n') :
    ∀ (t : Char) (rest : List Char), (t = ',' ∨ t = '\n') →
      parseUnquoted (f ++ t :: rest) = (f, t :: rest) := by
  induction f with
  | nil =>
    intro t rest ht
    simp only [List.nil_append, parseUnquoted]
    rw [if_pos ht]
  | cons c f ih =>
    intro t rest ht
    have hc := hf c (List.mem_cons_self c f)
    simp only [List.cons_append, parseUnquoted]
    rw [if_neg (by tauto)]
    simp only [List.append_eq]
    rw [ih (fun x hx => hf x (List.mem_cons_of_mem c hx)) t rest ht]


theorem needsQuote_false_clean {f : List Char} (h : needsQuote f = false) :
    ∀ x ∈ f, x ≠ ',' ∧ x ≠ '"' ∧ x ≠ '\n' ∧ x ≠ '\r' := by
  intro x hx
  rw [needsQuote, List.any_eq_false] at h
  have hthis := h x hx
  refine ⟨?_, ?_, ?_, ?_⟩ <;> (rintro rfl; simp at hthis)

theorem parseFieldAt_render (f : List Char) (t : Char) (rest : List Char)
    (ht : t = ',' ∨ t = '\n') :
    parseFieldAt (renderField f ++ t :: rest) = some (f, t :: rest) := by
  have htq : t ≠ '"' := by rcases ht with h | h <;> (subst h; decide)
  by_cases hq : needsQuote f = true
  · simp only [renderField, if_pos hq, List.cons_append, List.append_assoc,
      List.singleton_append]
    unfold parseFieldAt
    simp only [List.head?_cons, if_pos rfl, List.tail_cons]
    apply parseQuoted_escQuote
    simp [htq]
  · have hq' : needsQuote f = false := by simpa using hq
    have hclean := needsQuote_false_clean hq'
    simp only [renderField, hq', if_false, Bool.false_eq_true]
    have hhead : (f ++ t :: rest).head? ≠ some '"' := by
      cases f with
      | nil => simp [htq]
      | cons a f2 =>
        have := hclean a (List.mem_cons_self a f2)
        simp [this.2.1]
    unfold parseFieldAt
    rw [if_neg hhead, parseUnquoted_clean f (fun x hx => ⟨(hclean x hx).1, (hclean x hx).2.2.1⟩) t rest ht]

theorem parseRecF_render (fs : List (List Char)) :
    fs ≠ [] → ∀ (fuel : Nat) (rest : List Char), fs.length ≤ fuel →
      parseRecF fuel (renderFields fs ++ rest) = some (fs, rest) := by
  induction fs with
  | nil => intro h; exact absurd rfl h
  | cons f fs ih =>
    intro _ fuel rest hlen
    cases fuel with
    | zero => simp at hlen
    | succ k =>
      cases fs with
      | nil =>
        have hr1 : renderFields [f] = renderField f ++ ['\n'] := rfl
        rw [hr1, List.append_assoc, List.singleton_append]
        simp only [parseRecF]
        rw [parseFieldAt_render f '\n' rest (Or.inr rfl)]
        simp
      | cons g gs =>
        have hr : renderFields (f :: g :: gs)
            = renderField f ++ ',' :: renderFields (g :: gs) := rfl
        rw [hr]
        simp only [List.append_assoc, List.cons_append]
        simp only [parseRecF]
        rw [parseFieldAt_render f ',' (renderFields (g :: gs) ++ rest) (Or.inl rfl)]
        simp only [Option.some_bind]
        rw [ih (by simp) k rest (by simpa using hlen)]
        simp


theorem renderFields_length (fs : List (List Char)) :
    fs.length ≤ (renderFields fs).length ∧ 1 ≤ (renderFields fs).length := by
  induction fs with
  | nil => simp [renderFields]
  | cons f fs ih =>
    cases fs with
    | nil =>
      have hr1 : renderFields [f] = renderField f ++ ['\n'] := rfl
      simp [hr1]
    | cons g gs =>
      have hr : renderFields (f :: g :: gs)
          = renderField f ++ ',' :: renderFields (g :: gs) := rfl
      rw [hr]
      simp only [List.length_append, List.length_cons, List.length_cons] at ih ⊢
      omega

theorem parseDocF_render (table : List (List (List Char))) :
    ∀ fuel : Nat, table.length ≤ fuel → (∀ rec ∈ table, rec ≠ []) →
      parseDocF fuel (renderDoc table) = some table := by
  induction table with
  | nil =>
    intro fuel _ _
    cases fuel <;> simp [parseDocF, renderDoc]
  | cons rec rest ih =>
    intro fuel hlen hne
    cases fuel with
    | zero => simp at hlen
    | succ k =>
      have hrd : renderDoc (rec :: rest) = renderFields rec ++ renderDoc rest := rfl
      have hlen1 := renderFields_length rec
      have hnil : renderFields rec ++ renderDoc rest ≠ [] := by
        intro hembed
        have := congrArg List.length hembed
        simp only [List.length_append, List.length_nil] at this
        omega
      rw [hrd]
      simp only [parseDocF]
      rw [if_neg hnil]
      rw [parseRecF_render rec (hne rec (List.mem_cons_self rec rest))
        ((renderFields rec ++ renderDoc rest).length + 1) (renderDoc rest)
        (by simp only [List.length_append]; omega)]
      simp only [Option.some_bind]
      rw [ih k (by simpa using hlen) (fun r hr => hne r (List.mem_cons_of_mem rec hr))]
      rfl

theorem renderDoc_length (table : List (List (List Char))) :
    table.length ≤ (renderDoc table).length := by
  induction table with
  | nil => simp [renderDoc]
  | cons rec rest ih =>
    have hrd : renderDoc (rec :: rest) = renderFields rec ++ renderDoc rest := rfl
    have h1 := renderFields_length rec
    rw [hrd]
    simp only [List.length_append, List.length_cons]
    omega

theorem csv_roundtrip (table : List (List (List Char))) (h : ∀ rec ∈ table, rec ≠ []) :
    parseDoc (renderDoc table) = some table :=
  parseDocF_render table (renderDoc table).length (renderDoc_length table) h


theorem rowCells_ne_nil (r : DfRow) : rowCells r ≠ [] := by simp [rowCells]

theorem cellsToRow_rowCells (r : DfRow) (h : validRow r = true) :
    cellsToRow (rowCells r) = some r := by
  obtain ⟨rid, rnome, rvalor, rdata, rdesc, rcriado⟩ := r
  cases rdata with
  | none =>
    simp only [rowCells, cellsToRow, cellToNat_natDigs, cellToInt_intRepr,
      Option.some_bind, if_pos rfl]
    rfl
  | some c =>
    have hc : validCode c = true := by simpa [validRow] using h
    have hne : isoOfCode c ≠ [] := by rw [isoOfCode_eq]; simp
    simp only [rowCells, cellsToRow, cellToNat_natDigs, cellToInt_intRepr,
      Option.some_bind, if_neg hne, parseDateChars_isoOfCode hc, Option.map_some']

theorem rowsFromCells_map (rows : List DfRow) (h : ∀ r ∈ rows, validRow r = true) :
    rowsFromCells (rows.map rowCells) = some rows := by
  induction rows with
  | nil => rfl
  | cons r rows ih =>
    simp only [List.map_cons, rowsFromCells,
      cellsToRow_rowCells r (h r (List.mem_cons_self r rows)), Option.some_bind,
      ih (fun x hx => h x (List.mem_cons_of_mem r hx)), Option.map_some']

/-- C7: for every ordered sequence of records (whose date codes denote
calendar dates, as every code produced by `parseDate` does), `toCsv`
emits a header row of the `atos` field names followed by one data row per
record in input order, and decoding the CSV text recovers exactly the
input records (the byte payload is the injective UTF-8 encoding of this
text; `toCsv` takes only the record list, so it cannot mutate the store
and is a pure function of its input). -/
theorem c7_csv (rows : List DfRow) (h : ∀ r ∈ rows, validRow r = true) :
    parseDoc (toCsv rows).data = some (headerCells :: rows.map rowCells) ∧
    decodeCsvRecords (toCsv rows) = some rows := by
  have hne : ∀ rec ∈ headerCells :: rows.map rowCells, rec ≠ [] := by
    intro rec hrec
    rcases List.mem_cons.mp hrec with hh | hm
    · subst hh; decide
    · obtain ⟨r, _, rfl⟩ := List.mem_map.mp hm
      exact rowCells_ne_nil r
  have hdata : (toCsv rows).data = renderDoc (headerCells :: rows.map rowCells) := rfl
  have h1 : parseDoc (toCsv rows).data = some (headerCells :: rows.map rowCells) := by
    rw [hdata]
    exact csv_roundtrip _ hne
  refine ⟨h1, ?_⟩
  unfold decodeCsvRecords
  rw [h1]
  simp only [Option.some_bind, if_pos rfl]
  exact rowsFromCells_map rows h

/-- C7 (witness): the statement at a two-record list that exercises
quoting (comma and quote in a name), a negative amount and a missing
date. -/
theorem c7_witness :
    parseDoc (toCsv [csvRow1, csvRow2]).data
      = some (headerCells :: [csvRow1, csvRow2].map rowCells) ∧
    decodeCsvRecords (toCsv [csvRow1, csvRow2]) = some [csvRow1, csvRow2] :=
  c7_csv [csvRow1, csvRow2] (by decide)

end Cartorio
